import Mathlib

/-!
Shallow embedding of `git-touchfish-commit` (src/main.rs).

The program generates a randomized commit timestamp inside a configured
daily time-of-day window, guaranteed to be later than the last existing
commit, and invokes `git commit` / `git commit --amend` with that
timestamp in `GIT_AUTHOR_DATE` and `GIT_COMMITTER_DATE`.

Modelling conventions:
* Instants (`DateTime<Local>`) are `Int` unix seconds; `DateTime` comparison
  in chrono compares instants, so `≤` on `Int` is faithful.
* Naive local datetimes (`NaiveDateTime`) are `Int` seconds of a virtual
  local timeline: `date * 86400 + second-of-day`.
* The `Local` timezone is a parameter `TzModel`: `localOfInstant` maps an
  instant to its naive local representation (`DateTime::date_naive` etc.),
  and `instantOfLocal` maps a naive local datetime to an instant,
  returning `none` exactly when chrono's
  `Local.from_local_datetime(..).unwrap()` would panic (the `LocalResult`
  is `None` or `Ambiguous`, e.g. inside a daylight-saving transition).
  `fixedOffset off` is the DST-free instance used for the functional claims.
* Randomness: `rng.random_range(0..=total_seconds)` is modelled by passing
  the drawn value in (`World.draw`); theorems hypothesise the range bound.
* Effects (config store access, the `git log` subprocess, printing) are
  returned as an explicit `List Effect` trace.
* A Rust panic is modelled as `none` in `Option (Except String α)`;
  `some (.error e)` is an `Err` return, `some (.ok v)` an `Ok` return.
-/

deriving instance DecidableEq for Except

/-- Numeric value of a list of ASCII digit characters (most significant first). -/
def digitsVal (l : List Char) : Nat :=
  l.foldl (fun a c => a * 10 + (c.toNat - 48)) 0

/-- Embedding of `NaiveTime::parse_from_str(s, "%H:%M")`: one or two digits
for the hour (0..=23), a colon, one or two digits for the minute (0..=59),
nothing else. Returns the time as seconds of day. -/
def parseHHMM (s : String) : Option Int :=
  let l := s.data
  let h := l.takeWhile Char.isDigit
  let rest := l.dropWhile Char.isDigit
  match rest with
  | ':' :: m =>
    if 1 ≤ h.length ∧ h.length ≤ 2 ∧ 1 ≤ m.length ∧ m.length ≤ 2 ∧ m.all Char.isDigit then
      if digitsVal h ≤ 23 ∧ digitsVal m ≤ 59 then
        some ((digitsVal h : Int) * 3600 + (digitsVal m : Int) * 60)
      else none
    else none
  | _ => none

/-- Embedding of `str::parse::<i64>` on an ASCII string: optional sign then
digits. (The i64 overflow bound is not modelled; no claim depends on it.) -/
def parseI64 (l : List Char) : Option Int :=
  match l with
  | [] => none
  | '-' :: ds =>
      if ds ≠ [] ∧ ds.all Char.isDigit then some (-(digitsVal ds : Int)) else none
  | '+' :: ds =>
      if ds ≠ [] ∧ ds.all Char.isDigit then some ((digitsVal ds : Int)) else none
  | ds => if ds.all Char.isDigit then some ((digitsVal ds : Int)) else none

/-- ASCII whitespace test, for modelling `str::trim` on git's output. -/
def isWsChar (c : Char) : Bool :=
  c = ' ' || c = '\t' || c = '\n' || c = '\r'

/-- Embedding of `str::trim`: strip leading and trailing whitespace. -/
def trimAscii (l : List Char) : List Char :=
  ((l.dropWhile isWsChar).reverse.dropWhile isWsChar).reverse

/-- The persisted configuration record (struct `AppConfig`): two `HH:MM`
strings. -/
structure AppConfig where
  start_time : String
  end_time : String
deriving DecidableEq, Repr

/-- The `Default` impl of `AppConfig`: window `00:00`–`02:00`. -/
def AppConfig.defaultCfg : AppConfig :=
  { start_time := "00:00", end_time := "02:00" }

/-- Outcome of the `git log -1 --format=%ct` subprocess inside
`get_last_commit_time`: the command failed to execute, exited with a
non-success status, or succeeded printing `s` on stdout. -/
inductive GitLogOutcome where
  | execError
  | failStatus
  | output (s : String)
deriving DecidableEq, Repr

/-- Embedding of `get_last_commit_time` (src/main.rs:148-169). Execution
failure or non-success status yields `Ok(epoch)` (timestamp 0, i.e.
1970-01-01), as does empty trimmed output; otherwise the trimmed output is
parsed as an i64 unix timestamp, a parse failure propagating as `Err` via
`?`. (`String::from_utf8` is not modelled: stdout is already a `String`;
`Local.timestamp_opt(ts, 0).unwrap()` never panics since instant-based
conversion is always unique, and the resulting `DateTime<Local>` is the
instant `ts`.) -/
def get_last_commit_time : GitLogOutcome → Except String Int
  | .execError => .ok 0
  | .failStatus => .ok 0
  | .output s =>
      let t := trimAscii s.data
      if t = [] then .ok 0
      else
        match parseI64 t with
        | none => .error "无法解析时间戳"
        | some ts => .ok ts

/-- Timezone model for chrono's `Local`: `localOfInstant` is the naive
local datetime (in seconds) of an instant; `instantOfLocal` is
`TimeZone::from_local_datetime` followed by `LocalResult::unwrap`, with
`none` marking the panic cases (`LocalResult::None` / `Ambiguous`). -/
structure TzModel where
  localOfInstant : Int → Int
  instantOfLocal : Int → Option Int

/-- A DST-free local timezone at a fixed offset `off` seconds east of UTC:
local naive time is `instant + off` and every naive local datetime exists
uniquely. -/
def fixedOffset (off : Int) : TzModel where
  localOfInstant t := t + off
  instantOfLocal n := some (n - off)

/-- Embedding of `DateTime::date_naive()`, as a day number: floor division
of the naive local seconds by 86400 (`Int./` is euclidean division, which
is floor division for the positive divisor 86400, matching chrono). -/
def localDate (tz : TzModel) (t : Int) : Int :=
  tz.localOfInstant t / 86400

/-- The anchor date of `generate_random_commit_time` (src/main.rs:183-189):
today (the local date of `now`), advanced to the last commit's local date
when that is strictly later. -/
def baseDate (tz : TzModel) (last now : Int) : Int :=
  let b := localDate tz now
  if localDate tz last > b then localDate tz last else b

/-- The naive local datetime of the initially drawn candidate
(src/main.rs:192-204): `base_date.and_time(start_time)` plus the random
offset `k` seconds. -/
def candidateNaive (tz : TzModel) (st last now k : Int) : Int :=
  baseDate tz last now * 86400 + st + k

/-- Observable effects of a run, returned as an explicit trace:
loading / storing the confy configuration, running the `git log` query,
and printing the day-advance notice. -/
inductive Effect where
  | configLoad
  | configStore
  | repoQuery
  | print
deriving DecidableEq, Repr

/-- Core of `generate_random_commit_time` (src/main.rs:192-222), after the
config is parsed (`st`/`en` seconds of day), the last commit instant
`last` and `now` are known and the random draw `k` is fixed: validate the
window span, build the candidate on the anchor date, convert to a local
instant (`unwrap`: `none` = panic), and advance by one day — printing a
notice — when the candidate is at-or-before `last`. -/
def generateCore (tz : TzModel) (st en last now k : Int) :
    List Effect × Option (Except String Int) :=
  if en - st ≤ 0 then
    ([], some (.error "时间范围无效，结束时间必须晚于开始时间"))
  else
    let naive := candidateNaive tz st last now k
    match tz.instantOfLocal naive with
    | none => ([], none)
    | some finalDt =>
      if finalDt ≤ last then
        match tz.instantOfLocal (naive + 86400) with
        | none => ([.print], none)
        | some shifted => ([.print], some (.ok shifted))
      else ([], some (.ok finalDt))

/-- Ambient state of one invocation: the stored configuration (confy; the
default if never set), the outcome of the `git log` query, the current
instant `Local::now()`, and the value drawn by
`rng.random_range(0..=total_seconds)`. -/
structure World where
  cfg : AppConfig
  gitLog : GitLogOutcome
  nowInstant : Int
  draw : Int
deriving DecidableEq, Repr

/-- Embedding of `generate_random_commit_time` (src/main.rs:172-223):
loads the configuration itself (effect `configLoad`), parses both window
strings (`?` on failure), queries the repository itself via
`get_last_commit_time` (effect `repoQuery`, `?` on its error), then runs
the core generation. Returns the effect trace alongside the result
(`none` = panic). -/
def generate_random_commit_time (tz : TzModel) (w : World) :
    List Effect × Option (Except String Int) :=
  match parseHHMM w.cfg.start_time with
  | none => ([.configLoad], some (.error ("无效的开始时间格式: " ++ w.cfg.start_time)))
  | some st =>
    match parseHHMM w.cfg.end_time with
    | none => ([.configLoad], some (.error ("无效的结束时间格式: " ++ w.cfg.end_time)))
    | some en =>
      match get_last_commit_time w.gitLog with
      | .error e => ([.configLoad, .repoQuery], some (.error e))
      | .ok last =>
        let r := generateCore tz st en last w.nowInstant w.draw
        (.configLoad :: .repoQuery :: r.1, r.2)

/-- Embedding of `set_time_range` (src/main.rs:64-90): parse both strings
as `HH:MM`, reject unless start is strictly earlier than end, and
otherwise store exactly the two given strings (the confy record that
`confy::store` persists is the returned `AppConfig`). -/
def set_time_range (start end_ : String) : Except String AppConfig :=
  match parseHHMM start with
  | none => .error ("无效的开始时间格式: " ++ start)
  | some st =>
    match parseHHMM end_ with
    | none => .error ("无效的结束时间格式: " ++ end_)
    | some en =>
      if st ≥ en then .error "开始时间必须早于结束时间"
      else .ok { start_time := start, end_time := end_ }

/-- Stand-in for `DateTime::to_rfc3339`: an injective rendering of the
generated instant (the claims only relate the two date fields to each
other and to the generated timestamp, not to the RFC 3339 grammar). -/
def to_rfc3339 (t : Int) : String :=
  toString t

/-- The external `git` command invocation as constructed by the program:
program name, argument list, and the `GIT_AUTHOR_DATE` /
`GIT_COMMITTER_DATE` environment values. -/
structure GitInvocation where
  program : String
  args : List String
  authorDate : String
  committerDate : String
deriving DecidableEq, Repr

/-- Embedding of `run_commit` (src/main.rs:98-119): generate a timestamp
(propagating panic as `none` and `Err` via `?`), then run
`git commit <args>` with the formatted timestamp in both date environment
variables; `gitOk` is the exit status of that subprocess, non-success
becoming `Err`. On success the performed invocation is returned. -/
def run_commit (tz : TzModel) (w : World) (args : List String) (gitOk : Bool) :
    Option (Except String GitInvocation) :=
  match generate_random_commit_time tz w with
  | (_, none) => none
  | (_, some (.error e)) => some (.error e)
  | (_, some (.ok t)) =>
      if gitOk then
        some (.ok
          { program := "git"
            args := "commit" :: args
            authorDate := to_rfc3339 t
            committerDate := to_rfc3339 t })
      else some (.error "git commit 失败")

/-- Embedding of `amend_commit_time` (src/main.rs:121-145): generate a
timestamp, then run `git commit --amend --no-edit --reset-author <args>`
with the formatted timestamp in both date environment variables. -/
def amend_commit_time (tz : TzModel) (w : World) (args : List String) (gitOk : Bool) :
    Option (Except String GitInvocation) :=
  match generate_random_commit_time tz w with
  | (_, none) => none
  | (_, some (.error e)) => some (.error e)
  | (_, some (.ok t)) =>
      if gitOk then
        some (.ok
          { program := "git"
            args := "commit" :: "--amend" :: "--no-edit" :: "--reset-author" :: args
            authorDate := to_rfc3339 t
            committerDate := to_rfc3339 t })
      else some (.error "amend 失败")

/-! ## Helper lemmas -/

theorem parseHHMM_bounds {s : String} {v : Int} (h : parseHHMM s = some v) :
    0 ≤ v ∧ v ≤ 86340 := by
  simp only [parseHHMM] at h
  split at h
  · split at h
    · split at h
      · rename_i hb
        rw [Option.some.injEq] at h
        subst h
        omega
      · exact absurd h (by simp)
    · exact absurd h (by simp)
  · exact absurd h (by simp)

theorem baseDate_ge_last (off last now : Int) :
    (last + off) / 86400 ≤ baseDate (fixedOffset off) last now := by
  unfold baseDate localDate fixedOffset
  dsimp only
  split <;> omega

theorem generate_eq_core (tz : TzModel) (w : World) (st en last : Int)
    (hs : parseHHMM w.cfg.start_time = some st)
    (he : parseHHMM w.cfg.end_time = some en)
    (hl : get_last_commit_time w.gitLog = .ok last) :
    generate_random_commit_time tz w =
      (.configLoad :: .repoQuery :: (generateCore tz st en last w.nowInstant w.draw).1,
       (generateCore tz st en last w.nowInstant w.draw).2) := by
  unfold generate_random_commit_time
  rw [hs, he, hl]

theorem generateCore_fixedOffset_gt (off st en last now k t : Int)
    (hst : 0 ≤ st) (hk : 0 ≤ k)
    (hg : (generateCore (fixedOffset off) st en last now k).2 = some (.ok t)) :
    last < t := by
  have hb := baseDate_ge_last off last now
  unfold generateCore candidateNaive at hg
  simp only [fixedOffset] at hb hg
  split at hg
  · simp at hg
  · split at hg
    · rename_i hc
      simp only [Option.some.injEq, Except.ok.injEq] at hg
      omega
    · rename_i hc
      simp only [Option.some.injEq, Except.ok.injEq] at hg
      omega

theorem generateCore_fixedOffset_window (off st en last now k t : Int)
    (hst : 0 ≤ st) (hen : en < 86400) (hk0 : 0 ≤ k) (hk1 : k ≤ en - st)
    (hg : (generateCore (fixedOffset off) st en last now k).2 = some (.ok t)) :
    st ≤ (t + off) % 86400 ∧ (t + off) % 86400 ≤ en := by
  unfold generateCore candidateNaive at hg
  simp only [fixedOffset] at hg
  split at hg
  · simp at hg
  · split at hg
    · simp only [Option.some.injEq, Except.ok.injEq] at hg
      omega
    · simp only [Option.some.injEq, Except.ok.injEq] at hg
      omega

/-! ## C1 -/

/-- C1: for every present reference timestamp `last` (the last existing
commit), every parseable window, every current time and every nonnegative
random draw, a timestamp returned by `generate_random_commit_time` (in a
DST-free local timezone) is strictly greater than the reference — never
equal and never earlier. -/
theorem generated_time_strictly_after_reference (off : Int) (w : World)
    (st en last t : Int) (tr : List Effect)
    (hs : parseHHMM w.cfg.start_time = some st)
    (he : parseHHMM w.cfg.end_time = some en)
    (hl : get_last_commit_time w.gitLog = .ok last)
    (hk : 0 ≤ w.draw)
    (hg : generate_random_commit_time (fixedOffset off) w = (tr, some (.ok t))) :
    last < t := by
  rw [generate_eq_core (fixedOffset off) w st en last hs he hl] at hg
  have h2 : (generateCore (fixedOffset off) st en last w.nowInstant w.draw).2 =
      some (.ok t) := by
    have := congrArg Prod.snd hg
    simpa using this
  exact generateCore_fixedOffset_gt off st en last w.nowInstant w.draw t
    (parseHHMM_bounds hs).1 hk h2

/-- World for the C1 witness: window 00:00–02:00, last commit at unix
second 1000, now 2024-10-04 00:00:00 UTC, draw 0. -/
def wC1 : World := ⟨⟨"00:00", "02:00"⟩, .output "1000", 1728000000, 0⟩

/-- Witness for C1 at a concrete input: the generated timestamp
1728000000 is strictly after the reference 1000. -/
theorem generated_time_strictly_after_reference_witness : (1000 : Int) < 1728000000 :=
  generated_time_strictly_after_reference 0 wC1 0 7200 1000 1728000000
    [.configLoad, .repoQuery] (by decide) (by decide) (by decide) (by decide) (by decide)

/-! ## C3 -/

/-- C3: for every parseable window (`st`/`en` seconds of day), any
reference and current time, and a random draw within `[0, en - st]`, the
generated timestamp's time-of-day component — its local seconds of day
`(t + off) % 86400` on the calendar date the result falls on — lies
within the closed interval `[st, en]`. -/
theorem generated_time_of_day_in_window (off : Int) (w : World)
    (st en last t : Int) (tr : List Effect)
    (hs : parseHHMM w.cfg.start_time = some st)
    (he : parseHHMM w.cfg.end_time = some en)
    (hl : get_last_commit_time w.gitLog = .ok last)
    (hk0 : 0 ≤ w.draw) (hk1 : w.draw ≤ en - st)
    (hg : generate_random_commit_time (fixedOffset off) w = (tr, some (.ok t))) :
    st ≤ (t + off) % 86400 ∧ (t + off) % 86400 ≤ en := by
  rw [generate_eq_core (fixedOffset off) w st en last hs he hl] at hg
  have h2 : (generateCore (fixedOffset off) st en last w.nowInstant w.draw).2 =
      some (.ok t) := by
    have := congrArg Prod.snd hg
    simpa using this
  exact generateCore_fixedOffset_window off st en last w.nowInstant w.draw t
    (parseHHMM_bounds hs).1 (by have := (parseHHMM_bounds he).2; omega) hk0 hk1 h2

/-- World for the C3 witness: window 01:00–02:00, draw 30 seconds. -/
def wC3 : World := ⟨⟨"01:00", "02:00"⟩, .output "1000", 1728000000, 30⟩

/-- Witness for C3 at a concrete input: the result 1728003630 has
time-of-day 3630 seconds, inside the window [3600, 7200]. -/
theorem generated_time_of_day_in_window_witness :
    (3600 : Int) ≤ (1728003630 + 0) % 86400 ∧ ((1728003630 : Int) + 0) % 86400 ≤ 7200 :=
  generated_time_of_day_in_window 0 wC3 3600 7200 1000 1728003630
    [.configLoad, .repoQuery] (by decide) (by decide) (by decide) (by decide)
    (by decide) (by decide)

/-! ## C4 -/

/-- C4: when the initially drawn candidate instant (the local instant of
`candidateNaive`, i.e. `candidateNaive - off` at fixed offset) is
at-or-before the reference `last`, the generation core returns exactly the
candidate advanced by one calendar day (+86400 seconds) with the same
local time-of-day, for every `last` — including values of `last` at or
after the shifted result, so the shifted result is never re-checked or
shifted a second time. -/
theorem correction_single_day_shift (off st en last now k : Int)
    (hw : 0 < en - st)
    (hle : candidateNaive (fixedOffset off) st last now k - off ≤ last) :
    generateCore (fixedOffset off) st en last now k =
      ([.print],
       some (.ok (candidateNaive (fixedOffset off) st last now k - off + 86400))) ∧
    (candidateNaive (fixedOffset off) st last now k - off + 86400 + off) % 86400 =
      (candidateNaive (fixedOffset off) st last now k - off + off) % 86400 := by
  constructor
  · unfold generateCore
    rw [if_neg (by omega)]
    simp only [fixedOffset] at hle ⊢
    rw [if_pos hle]
    simp only [Prod.mk.injEq, Option.some.injEq, Except.ok.injEq, List.cons.injEq]
    exact ⟨trivial, by omega⟩
  · omega

/-- Witness for C4 at a concrete input: candidate 1728000000 is before the
reference 1728054000, and the core returns exactly the candidate plus one
day, with unchanged time-of-day. -/
theorem correction_single_day_shift_witness :
    generateCore (fixedOffset 0) 0 7200 1728054000 1728057600 0 =
      ([.print],
       some (.ok (candidateNaive (fixedOffset 0) 0 1728054000 1728057600 0 - 0 + 86400))) ∧
    (candidateNaive (fixedOffset 0) 0 1728054000 1728057600 0 - 0 + 86400 + 0) % 86400 =
      (candidateNaive (fixedOffset 0) 0 1728054000 1728057600 0 - 0 + 0) % 86400 :=
  correction_single_day_shift 0 0 7200 1728054000 1728057600 0 (by decide) (by decide)

/-! ## C5 -/

/-- C5: for every stored window whose parsed start is at-or-after its
parsed end, generation fails with the invalid-window error (for any
timezone model, any current time, any draw and any reference), and
`run_commit` propagates that error without constructing any git
invocation — no commit is attempted. -/
theorem invalid_window_rejected (tz : TzModel) (w : World) (st en last : Int)
    (hs : parseHHMM w.cfg.start_time = some st)
    (he : parseHHMM w.cfg.end_time = some en)
    (hl : get_last_commit_time w.gitLog = .ok last)
    (hv : en ≤ st) :
    generate_random_commit_time tz w =
      ([.configLoad, .repoQuery],
       some (.error "时间范围无效，结束时间必须晚于开始时间")) ∧
    ∀ args gitOk, run_commit tz w args gitOk =
      some (.error "时间范围无效，结束时间必须晚于开始时间") := by
  have hgen : generate_random_commit_time tz w =
      ([.configLoad, .repoQuery],
       some (.error "时间范围无效，结束时间必须晚于开始时间")) := by
    rw [generate_eq_core tz w st en last hs he hl]
    unfold generateCore
    rw [if_pos (by omega)]
  refine ⟨hgen, fun args gitOk => ?_⟩
  unfold run_commit
  rw [hgen]

/-- World for the C5 witness: stored window 03:00–02:00 (start after
end), repository query failing. -/
def wC5 : World := ⟨⟨"03:00", "02:00"⟩, .failStatus, 1728000000, 0⟩

/-- Witness for C5 at a concrete input: the inverted window 03:00–02:00 is
rejected with the invalid-window error and `run_commit` fails without a
git invocation. -/
theorem invalid_window_rejected_witness :
    generate_random_commit_time (fixedOffset 0) wC5 =
      ([.configLoad, .repoQuery],
       some (.error "时间范围无效，结束时间必须晚于开始时间")) ∧
    run_commit (fixedOffset 0) wC5 ["-m", "msg"] true =
      some (.error "时间范围无效，结束时间必须晚于开始时间") :=
  ⟨(invalid_window_rejected (fixedOffset 0) wC5 10800 7200 0
      (by decide) (by decide) (by decide) (by decide)).1,
   (invalid_window_rejected (fixedOffset 0) wC5 10800 7200 0
      (by decide) (by decide) (by decide) (by decide)).2 ["-m", "msg"] true⟩

/-! ## C7 -/

/-- Proposition that a run of the generator returned a timestamp
(an `Ok` value, neither a panic nor an `Err`). -/
def returnsTimestamp (r : List Effect × Option (Except String Int)) : Prop :=
  ∃ t, r.2 = some (Except.ok t)

/-- With a valid window, the fixed-offset generation core never errors and
never panics: it returns a timestamp in both branches. -/
theorem generateCore_fixedOffset_total (off st en last now k : Int) (hv : st < en) :
    ∃ t, (generateCore (fixedOffset off) st en last now k).2 = some (.ok t) := by
  unfold generateCore
  rw [if_neg (by omega)]
  simp only [fixedOffset]
  split
  · exact ⟨_, rfl⟩
  · exact ⟨_, rfl⟩

/-- A repository-query outcome that the source absorbs as an absent prior
commit (execution failure, non-success exit, or whitespace-only output)
makes `get_last_commit_time` return `Ok(epoch)`. -/
theorem get_last_commit_time_absent {g : GitLogOutcome}
    (habs : g = .execError ∨ g = .failStatus ∨
      ∃ s, g = .output s ∧ trimAscii s.data = []) :
    get_last_commit_time g = .ok 0 := by
  rcases habs with h | h | ⟨s, h, ht⟩
  · rw [h]
    rfl
  · rw [h]
    rfl
  · rw [h]
    simp [get_last_commit_time, ht]

/-- C7: a failure of the last-commit-timestamp query — the subprocess
cannot run, exits unsuccessfully (not in a repository / no commits), or
prints only whitespace — never aborts generation: `get_last_commit_time`
absorbs it into `Ok(epoch)` exactly as an absent prior commit, and with a
valid window the generation call still returns a timestamp. -/
theorem query_failure_absorbed (off : Int) (w : World) (st en : Int)
    (habs : w.gitLog = .execError ∨ w.gitLog = .failStatus ∨
      ∃ s, w.gitLog = .output s ∧ trimAscii s.data = [])
    (hs : parseHHMM w.cfg.start_time = some st)
    (he : parseHHMM w.cfg.end_time = some en)
    (hv : st < en) :
    get_last_commit_time w.gitLog = .ok 0 ∧
    returnsTimestamp (generate_random_commit_time (fixedOffset off) w) := by
  have hl : get_last_commit_time w.gitLog = .ok 0 := get_last_commit_time_absent habs
  refine ⟨hl, ?_⟩
  obtain ⟨t, ht⟩ := generateCore_fixedOffset_total off st en 0 w.nowInstant w.draw hv
  exact ⟨t, by rw [generate_eq_core (fixedOffset off) w st en 0 hs he hl]; exact ht⟩

/-- World for the C7 witness: the git query succeeds but prints only
whitespace (a repository with no parseable history). -/
def wC7 : World := ⟨⟨"00:00", "02:00"⟩, .output "  \n", 1728000000, 0⟩

/-- Witness for C7 at a concrete input: whitespace-only git output is
absorbed as the epoch reference and generation still returns a
timestamp. -/
theorem query_failure_absorbed_witness :
    get_last_commit_time wC7.gitLog = .ok 0 ∧
    returnsTimestamp (generate_random_commit_time (fixedOffset 0) wC7) :=
  query_failure_absorbed 0 wC7 0 7200
    (Or.inr (Or.inr ⟨"  \n", rfl, by decide⟩)) (by decide) (by decide) (by decide)

/-! ## C8 -/

/-- C8: for every pair of `HH:MM`-parseable times, `set_time_range`
succeeds when start is strictly earlier than end, storing exactly the two
given strings as the configuration record, and fails with the
invalid-window error — storing nothing — when start is at-or-after
end. -/
theorem set_time_range_spec (s e : String) (st en : Int)
    (hs : parseHHMM s = some st) (he : parseHHMM e = some en) :
    (st < en → set_time_range s e = .ok ⟨s, e⟩) ∧
    (en ≤ st → set_time_range s e = .error "开始时间必须早于结束时间") := by
  unfold set_time_range
  rw [hs, he]
  dsimp only
  constructor
  · intro h
    rw [if_neg (by omega)]
  · intro h
    rw [if_pos (by omega)]

/-- Witness for C8 at concrete inputs: `set 09:00 17:00` stores exactly
those strings, and the inverted `set 17:00 09:00` is rejected. -/
theorem set_time_range_spec_witness :
    set_time_range "09:00" "17:00" = .ok ⟨"09:00", "17:00"⟩ ∧
    set_time_range "17:00" "09:00" = .error "开始时间必须早于结束时间" :=
  ⟨(set_time_range_spec "09:00" "17:00" 32400 61200 (by decide) (by decide)).1
     (by decide),
   (set_time_range_spec "17:00" "09:00" 61200 32400 (by decide) (by decide)).2
     (by decide)⟩

/-! ## C9 -/

/-- C9: whenever generation returns the timestamp `t` and the external
tool succeeds, the amend operation invokes git with
`commit --amend --no-edit --reset-author` (`--no-edit` preserves the
commit message, `--reset-author` resets authorship to the current user),
forwards every extra argument verbatim after those flags, and sets both
the author-date and committer-date environment values to the same
formatted `t`. -/
theorem amend_builds_invocation (tz : TzModel) (w : World) (args : List String)
    (t : Int) (tr : List Effect)
    (hg : generate_random_commit_time tz w = (tr, some (.ok t))) :
    amend_commit_time tz w args true =
      some (.ok
        { program := "git"
          args := "commit" :: "--amend" :: "--no-edit" :: "--reset-author" :: args
          authorDate := to_rfc3339 t
          committerDate := to_rfc3339 t }) := by
  unfold amend_commit_time
  rw [hg]
  rfl

/-- World for the C9 witness. -/
def wC9 : World := ⟨⟨"00:00", "02:00"⟩, .output "1000", 1728000000, 0⟩

/-- Witness for C9 at a concrete input: amending with one extra argument
produces the full flag list with the argument forwarded and both date
fields equal. -/
theorem amend_builds_invocation_witness :
    amend_commit_time (fixedOffset 0) wC9 ["--allow-empty"] true =
      some (.ok
        { program := "git"
          args := ["commit", "--amend", "--no-edit", "--reset-author", "--allow-empty"]
          authorDate := to_rfc3339 1728000000
          committerDate := to_rfc3339 1728000000 }) :=
  amend_builds_invocation (fixedOffset 0) wC9 ["--allow-empty"] 1728000000
    [.configLoad, .repoQuery] (by decide)

/-! ## C10 -/

/-- A timezone model with a daylight-saving spring-forward gap: at instant
1728007200 the clocks jump one hour forward, so the naive local datetimes
in [1728007200, 1728010800) do not exist and
`from_local_datetime(..).unwrap()` panics there (`none`). -/
def gapTz : TzModel where
  localOfInstant t := if 1728007200 ≤ t then t + 3600 else t
  instantOfLocal n :=
    if 1728007200 ≤ n ∧ n < 1728010800 then none
    else if n < 1728007200 then some n else some (n - 3600)

/-- World for C10: window 02:00–04:00, no prior commit, now at local
midnight of day 20000, draw 0 — the candidate lands at local 02:00,
inside the gap. -/
def wC10 : World := ⟨⟨"02:00", "04:00"⟩, .failStatus, 1728000000, 0⟩

/-- C10: generation is not total over local time: in the spring-forward
timezone `gapTz` the drawn candidate's naive local datetime does not
exist, the unwrapped conversion panics (modelled as `none`), and the
generation call yields neither an `Ok` timestamp nor an `Err` value. -/
theorem generation_panics_on_gap :
    (generate_random_commit_time gapTz wC10).2 = none ∧
    gapTz.instantOfLocal
      (candidateNaive gapTz 7200 0 wC10.nowInstant wC10.draw) = none := by
  decide

/-! ## C2 -/

/-- World refuting C2: no reference (failed git query), window
00:00–02:00, now = 1728054000 (15:00 local on day 20000), draw 0. -/
def wC2 : World := ⟨⟨"00:00", "02:00"⟩, .failStatus, 1728054000, 0⟩

/-- Counterexample to C2: with no reference, the candidate
1728000000 (00:00 local) is earlier than now (15:00 local) yet is
returned unshifted — the generated timestamp is strictly in the past
relative to now, so no courtesy check against `now` exists. -/
theorem no_reference_now_check_counterexample :
    (generate_random_commit_time (fixedOffset 0) wC2).2 = some (.ok 1728000000) ∧
    (1728000000 : Int) < wC2.nowInstant := by
  decide

/-- C2 amended: when no reference exists the code substitutes the Unix
epoch (instant 0) for it; the candidate is compared against that epoch
only — never against `now` — and is advanced by one day only when
at-or-before the epoch. Hence whenever the candidate instant is positive
it is returned unshifted, and (per the counterexample) it may be strictly
in the past relative to `now`. -/
theorem no_reference_epoch_fallback (off : Int) (w : World) (st en : Int)
    (habs : w.gitLog = .execError ∨ w.gitLog = .failStatus ∨
      ∃ s, w.gitLog = .output s ∧ trimAscii s.data = [])
    (hs : parseHHMM w.cfg.start_time = some st)
    (he : parseHHMM w.cfg.end_time = some en)
    (hv : st < en)
    (hpos : 0 < candidateNaive (fixedOffset off) st 0 w.nowInstant w.draw - off) :
    (generate_random_commit_time (fixedOffset off) w).2 =
      some (.ok (candidateNaive (fixedOffset off) st 0 w.nowInstant w.draw - off)) := by
  rw [generate_eq_core (fixedOffset off) w st en 0 hs he
    (get_last_commit_time_absent habs)]
  unfold generateCore
  rw [if_neg (by omega)]
  simp only [fixedOffset] at hpos ⊢
  rw [if_neg (by omega)]

/-- Witness for the amended C2 at a concrete input: at `wC2` the candidate
instant 1728000000 is positive, so it is returned unshifted. -/
theorem no_reference_epoch_fallback_witness :
    (generate_random_commit_time (fixedOffset 0) wC2).2 =
      some (.ok (candidateNaive (fixedOffset 0) 0 0 wC2.nowInstant wC2.draw - 0)) :=
  no_reference_epoch_fallback 0 wC2 0 7200 (Or.inr (Or.inl rfl))
    (by decide) (by decide) (by decide) (by decide)

/-! ## C6 -/

/-- World refuting C6: a prior commit at 15:00 exists and now is 16:00,
so the drawn candidate (00:00) triggers the day-advance notice. -/
def wC6 : World := ⟨⟨"00:00", "02:00"⟩, .output "1728054000", 1728057600, 0⟩

/-- Counterexample to C6: the effect trace of a generation call records
that it queried the repository for the last commit itself and that it
printed — contradicting the claim that it neither queries the repository
nor prints. -/
theorem generation_effects_counterexample :
    Effect.repoQuery ∈ (generate_random_commit_time (fixedOffset 0) wC6).1 ∧
    Effect.print ∈ (generate_random_commit_time (fixedOffset 0) wC6).1 := by
  decide

/-- C6 amended: the generation operation never mutates (stores) the
configuration, but it is not otherwise effect-free: whenever the stored
window parses, its effect trace records that it loaded the configuration
itself and queried the repository for the last commit itself (and it may
print, namely the day-advance notice when the ordering correction
fires). -/
theorem generation_effects_profile (tz : TzModel) (w : World) (st en : Int)
    (hs : parseHHMM w.cfg.start_time = some st)
    (he : parseHHMM w.cfg.end_time = some en) :
    Effect.configStore ∉ (generate_random_commit_time tz w).1 ∧
    Effect.configLoad ∈ (generate_random_commit_time tz w).1 ∧
    Effect.repoQuery ∈ (generate_random_commit_time tz w).1 := by
  unfold generate_random_commit_time
  rw [hs, he]
  cases hgl : get_last_commit_time w.gitLog with
  | error e => simp
  | ok last =>
    have hcore : (generateCore tz st en last w.nowInstant w.draw).1 = [] ∨
        (generateCore tz st en last w.nowInstant w.draw).1 = [.print] := by
      unfold generateCore
      split
      · exact Or.inl rfl
      · dsimp only
        split
        · exact Or.inl rfl
        · split
          · split
            · exact Or.inr rfl
            · exact Or.inr rfl
          · exact Or.inl rfl
    rcases hcore with h | h <;> simp [h]

/-- Witness for the amended C6 at a concrete input. -/
theorem generation_effects_profile_witness :
    Effect.configStore ∉ (generate_random_commit_time (fixedOffset 0) wC6).1 ∧
    Effect.configLoad ∈ (generate_random_commit_time (fixedOffset 0) wC6).1 ∧
    Effect.repoQuery ∈ (generate_random_commit_time (fixedOffset 0) wC6).1 :=
  generation_effects_profile (fixedOffset 0) wC6 0 7200 (by decide) (by decide)
